import Mathlib

/-!
Shallow embedding of `carsim.py`, the supervisor and line-protocol client of
the Car_Simulation repository.

Modelling conventions:
* Python strings are modelled as `List Char` (abbreviated `Str`); the worker's
  stdout is modelled as the list of lines still to be read, its stdin as the
  list of chunks written so far.
* Python floats are modelled by `PyFloat`: a rational for the finite values
  plus the special values `inf`, `-inf` and `nan` (which have Python type
  `float` and therefore pass the `type(value) in NUM_T` checks of the source).
* Python exceptions are modelled by the `PyErr` type; a function that can
  raise returns `Except PyErr _`.
* `'%f' % x` (fixed-point formatting with six decimals) is modelled on the
  rational carried by a finite float as rounding `x * 10^6` to the nearest
  integer (`round`, ties away from the exact binary tie behaviour of the host
  printf, which is immaterial to the claims) and printing `whole.frac`;
  on the non-finite values it prints `inf` / `-inf` / `nan`, as Python does.
-/

/-- Python strings are lists of characters. -/
abbrev Str := List Char

/-- Model of a Python `float` (and of the ints accepted by `NUM_T`): either a
finite double, modelled as a rational, or one of the special values
`inf`, `-inf`, `nan`, all of which have Python type `float`. -/
inductive PyFloat where
  | finite (q : ℚ)
  | inf
  | neginf
  | nan
deriving DecidableEq

/-- Whether a `PyFloat` is a finite number. -/
def PyFloat.isFinite : PyFloat → Bool
  | .finite _ => true
  | _ => false

/-- Model of the Python exceptions that `carsim.py` raises or propagates. -/
inductive PyErr where
  | brokenPipeError
  | assertionError (msg : Str)
  | simulationError (msg : Str)
  | simulatorError (msg : Str)
  | valueError (msg : Str)
deriving DecidableEq

/-- Decidable equality of outcomes, so that concrete runs can be settled by
computation. -/
instance exceptDecEq {e a : Type} [DecidableEq e] [DecidableEq a] : DecidableEq (Except e a) :=
  fun x y =>
  match x, y with
  | .ok u, .ok v =>
    if h : u = v then .isTrue (by rw [h]) else .isFalse (fun hc => h (Except.ok.inj hc))
  | .error u, .error v =>
    if h : u = v then .isTrue (by rw [h]) else .isFalse (fun hc => h (Except.error.inj hc))
  | .ok _, .error _ => .isFalse (fun hc => Except.noConfusion hc)
  | .error _, .ok _ => .isFalse (fun hc => Except.noConfusion hc)

/-- True exactly on the `SimulatorError` exception class of the source. -/
def PyErr.isSimulatorError : PyErr → Bool
  | .simulatorError _ => true
  | _ => false

/-- Model of Python `str.rstrip()`: remove trailing whitespace. -/
def rstrip (s : Str) : Str :=
  (s.reverse.dropWhile Char.isWhitespace).reverse

/-- Model of `readline()` on the worker's stdout, represented as the list of
lines (without their terminating newline) still unread.  At end of stream
Python's `readline` returns the empty string. -/
def readLine (input : List Str) : Str × List Str :=
  match input with
  | [] => ([], [])
  | l :: ls => (l, ls)

/-- Model of Python `line.split(' ')` (split on every single space character,
keeping empty pieces, as the source does in `_recv_states`/`_recv_scores`). -/
def splitSp : Str → List Str
  | [] => [[]]
  | c :: t =>
    if c = ' ' then [] :: splitSp t
    else
      match splitSp t with
      | [] => [[c]]
      | w :: ws => (c :: w) :: ws

/-- Accumulator worker for `splitWs`. -/
def splitWsAux : Str → Str → List Str
  | [], acc => if acc = [] then [] else [acc.reverse]
  | c :: t, acc =>
    if c.isWhitespace then
      if acc = [] then splitWsAux t []
      else acc.reverse :: splitWsAux t []
    else splitWsAux t (c :: acc)

/-- Model of Python `str.split()` with no argument: split on runs of
whitespace, discarding empty pieces. -/
def splitWs (l : Str) : List Str := splitWsAux l []

/-- The character for a decimal digit value. -/
def digitChar (d : ℕ) : Char := Char.ofNat (48 + d)

/-- The decimal value of a digit character. -/
def digitVal (c : Char) : ℕ := c.toNat - 48

/-- Fuel-driven little-endian decimal digit expansion of a natural number
(structurally recursive so that it evaluates inside the kernel). -/
def natDigitsAux : ℕ → ℕ → List Char
  | 0, _ => []
  | _ + 1, 0 => []
  | f + 1, n => digitChar (n % 10) :: natDigitsAux f (n / 10)

/-- Decimal rendering of a natural number. -/
def natStr (n : ℕ) : Str :=
  if n = 0 then ['0'] else (natDigitsAux n n).reverse

/-- Numeric value of a big-endian string of decimal digit characters. -/
def digitsVal (s : Str) : ℕ :=
  Nat.ofDigits 10 (s.reverse.map digitVal)

/-- The fractional part of a `%f` rendering: the value `m < 10^6` printed in
exactly six digits, left-padded with zeros. -/
def pad6 (m : ℕ) : Str :=
  List.replicate (6 - (natStr m).length) '0' ++ natStr m

/-- Model of Python `'%f' % x`: fixed-point notation with six decimals for a
finite float; `inf`, `-inf` and `nan` print as those literal words. -/
def fmtF (x : PyFloat) : Str :=
  match x with
  | .finite q =>
    let n : ℤ := round (q * 1000000)
    (if q < 0 then ['-'] else []) ++ (natStr (n.natAbs / 1000000) ++ ('.' :: pad6 (n.natAbs % 1000000)))
  | .inf => ['i', 'n', 'f']
  | .neginf => ['-', 'i', 'n', 'f']
  | .nan => ['n', 'a', 'n']

/-- Parse an unsigned fixed-notation decimal: digits, optionally followed by a
point and further digits.  Returns `none` on anything else (in particular on
scientific notation, `inf` and `nan`). -/
def parseUFixed (s : Str) : Option ℚ :=
  let ip := s.takeWhile Char.isDigit
  if ip = [] then none
  else
    match s.dropWhile Char.isDigit with
    | [] => some (digitsVal ip : ℚ)
    | c :: fp =>
      if c = '.' ∧ fp ≠ [] ∧ fp.all Char.isDigit then
        some ((digitsVal ip : ℚ) + (digitsVal fp : ℚ) / 10 ^ fp.length)
      else none

/-- Parse a (possibly negatively signed) fixed-notation decimal. -/
def parseFixed (s : Str) : Option ℚ :=
  match s with
  | [] => none
  | c :: t => if c = '-' then (parseUFixed t).map (fun x => -x) else parseUFixed (c :: t)

/-- The value actually carried by the `%f` rendering of a finite float `q`:
`q` rounded to six decimal places. -/
def round6 (q : ℚ) : ℚ := (round (q * 1000000) : ℤ) / 1000000

/-- Model of Python `int(line)` as used on the worker's state-count reply:
optional sign followed by decimal digits (whitespace stripped), anything else
raises `ValueError`. -/
def pyInt (s : Str) : Except PyErr ℤ :=
  let t := rstrip (s.dropWhile Char.isWhitespace)
  match t with
  | '-' :: ds =>
    if ds ≠ [] ∧ ds.all Char.isDigit then .ok (-(digitsVal ds : ℤ))
    else .error (.valueError ('i' :: 'n' :: 't' :: []))
  | '+' :: ds =>
    if ds ≠ [] ∧ ds.all Char.isDigit then .ok (digitsVal ds : ℤ)
    else .error (.valueError ('i' :: 'n' :: 't' :: []))
  | ds =>
    if ds ≠ [] ∧ ds.all Char.isDigit then .ok (digitsVal ds : ℤ)
    else .error (.valueError ('i' :: 'n' :: 't' :: []))

/-- Model of `np.double(token)` applied to a reply token.  A fixed-notation
decimal converts to its value; a token that is not a number raises
`ValueError`.  (Real numpy also accepts scientific notation and the words
`inf`/`nan`; no theorem below depends on the acceptance of those forms.) -/
def npDouble (t : Str) : Except PyErr ℚ :=
  match parseFixed t with
  | some q => .ok q
  | none => .error (.valueError ('f' :: 'l' :: 'o' :: 'a' :: 't' :: []))

/-- The error-line marker of the wire protocol. -/
def err_tag : Str := "ERR ".data

/-- Model of `Simulator._recv`: read one line, strip trailing whitespace; a
line with the `ERR ` marker raises `SimulationError` carrying the rest of the
line, any other line is returned. -/
def recv (input : List Str) : Except PyErr (Str × List Str) :=
  let r := readLine input
  let line := rstrip r.1
  if err_tag.isPrefixOf line then .error (.simulationError (line.drop 4))
  else .ok (line, r.2)

/-- One row of `Simulator._recv_states`: split the stripped line on single
spaces, convert every token with `np.double` (the first bad token raises
`ValueError`), then store into a row of width 3 (numpy broadcasts a single
value across the row; any other length mismatch raises `ValueError`). -/
def recv_row3 (line : Str) : Except PyErr (ℚ × ℚ × ℚ) :=
  match (splitSp (rstrip line)).mapM npDouble with
  | .error e => .error e
  | .ok vals =>
    match vals with
    | [x, y, z] => .ok (x, y, z)
    | [x] => .ok (x, x, x)
    | _ => .error (.valueError "could not broadcast".data)

/-- Model of `Simulator._recv_states`: read `state_num` lines directly from
the worker's stdout (note: without the `ERR ` check of `_recv`) and parse each
into an (x, y, angle) row. -/
def recv_states : ℕ → List Str → Except PyErr (List (ℚ × ℚ × ℚ) × List Str)
  | 0, input => .ok ([], input)
  | n + 1, input =>
    let r := readLine input
    match recv_row3 r.1 with
    | .error e => .error e
    | .ok row =>
      match recv_states n r.2 with
      | .error e => .error e
      | .ok (rows, rest) => .ok (row :: rows, rest)

/-- One row of `Simulator._recv_scores`, of width 2 (same conversion and
broadcast behaviour as `recv_row3`). -/
def recv_row2 (line : Str) : Except PyErr (ℚ × ℚ) :=
  match (splitSp (rstrip line)).mapM npDouble with
  | .error e => .error e
  | .ok vals =>
    match vals with
    | [x, y] => .ok (x, y)
    | [x] => .ok (x, x)
    | _ => .error (.valueError "could not broadcast".data)

/-- The score rows after the first: read directly from the worker's stdout
(again without the `ERR ` check of `_recv`). -/
def recv_scores_tail : ℕ → List Str → Except PyErr (List (ℚ × ℚ) × List Str)
  | 0, input => .ok ([], input)
  | n + 1, input =>
    let r := readLine input
    match recv_row2 r.1 with
    | .error e => .error e
    | .ok row =>
      match recv_scores_tail n r.2 with
      | .error e => .error e
      | .ok (rows, rest) => .ok (row :: rows, rest)

/-- Model of `Simulator._recv_scores`: the first score line goes through
`_recv` (so an `ERR ` head line raises `SimulationError`), the remaining
`car_num - 1` lines are read directly.  Call sites guarantee `car_num ≥ 1`
(the race validation rejects empty car lists). -/
def recv_scores (car_num : ℕ) (input : List Str) : Except PyErr (List (ℚ × ℚ) × List Str) :=
  match recv input with
  | .error e => .error e
  | .ok (head, rest) =>
    match recv_row2 head with
    | .error e => .error e
    | .ok row =>
      match recv_scores_tail (car_num - 1) rest with
      | .error e => .error e
      | .ok (rows, rest2) => .ok (row :: rows, rest2)

/-- Model of `Simulator._check_num` (`assert type(value) in NUM_T`): every
`PyFloat` has Python type `float` (or `int`), both members of `NUM_T`, so on
the numeric values of this model the check always passes — in particular it
passes on `nan` and `inf`, which are of type `float`. -/
def check_num (label : Str) (value : PyFloat) : Except PyErr Unit := .ok ()

/-- Model of `Simulator._check_nums`: the argument must be a container (lists
always are) of exactly the required length whose entries are numbers
(`check_num`, which always passes on `PyFloat`s). -/
def check_nums (label : Str) (len : ℕ) (value : List PyFloat) : Except PyErr Unit :=
  if value.length = len then .ok ()
  else .error (.assertionError (label ++ " should have length ".data ++ natStr len))

/-- A car as submitted to `race`: the tuple (frame_width, upper_shape,
lower_shape, left_wheel, right_wheel), with no length constraints yet (the
validation layer checks the lengths). -/
abbrev Car := PyFloat × List PyFloat × List PyFloat × List PyFloat × List PyFloat

/-- The per-car loop of `Simulator._check_cars`. -/
def check_cars_each (idx : ℕ) : List Car → Except PyErr Unit
  | [] => .ok ()
  | (fw, us, ls, lw, rw) :: rest => do
    check_num ("frame_width of car ".data ++ natStr idx) fw
    check_nums ("upper_shape of car ".data ++ natStr idx) 5 us
    check_nums ("lower_shape of car ".data ++ natStr idx) 5 ls
    check_nums ("left_wheel of car ".data ++ natStr idx) 2 lw
    check_nums ("right_wheel of car ".data ++ natStr idx) 2 rw
    check_cars_each (idx + 1) rest

/-- Model of `Simulator._check_cars`: a non-empty list of at most 100 cars,
each individually validated. -/
def check_cars (cars : List Car) : Except PyErr Unit :=
  if cars.length = 0 then .error (.assertionError "cars should not be an empty list".data)
  else if 100 < cars.length then
    .error (.assertionError "you have provided too many cars (use a number less or equal to 100)".data)
  else check_cars_each 0 cars

/-- Default used only to model Python sequence indexing; every call site of
`car_spec` first validates the exact lengths 5, 5, 2, 2, so the default is
never actually read. -/
def pyZero : PyFloat := .finite 0

/-- Model of `Simulator._car_spec`, the printf
`' %f %f %f %f %f %f %f %f %f %f %f %f %f %f %f\n'` applied to frame_width,
upper_shape[0..4], lower_shape[0..4], left_wheel[0..1], right_wheel[0..1]. -/
def car_spec (frame_width : PyFloat) (upper_shape lower_shape left_wheel right_wheel : List PyFloat) : Str :=
  (' ' :: fmtF frame_width) ++
  (' ' :: fmtF (upper_shape.getD 0 pyZero)) ++
  (' ' :: fmtF (upper_shape.getD 1 pyZero)) ++
  (' ' :: fmtF (upper_shape.getD 2 pyZero)) ++
  (' ' :: fmtF (upper_shape.getD 3 pyZero)) ++
  (' ' :: fmtF (upper_shape.getD 4 pyZero)) ++
  (' ' :: fmtF (lower_shape.getD 0 pyZero)) ++
  (' ' :: fmtF (lower_shape.getD 1 pyZero)) ++
  (' ' :: fmtF (lower_shape.getD 2 pyZero)) ++
  (' ' :: fmtF (lower_shape.getD 3 pyZero)) ++
  (' ' :: fmtF (lower_shape.getD 4 pyZero)) ++
  (' ' :: fmtF (left_wheel.getD 0 pyZero)) ++
  (' ' :: fmtF (left_wheel.getD 1 pyZero)) ++
  (' ' :: fmtF (right_wheel.getD 0 pyZero)) ++
  (' ' :: fmtF (right_wheel.getD 1 pyZero)) ++ ['\n']

/-- Model of `Simulator.simulate` (the wrapped method body): validate the
arguments, write `'SIM' + car_spec(...)`, read the state count with `_recv`,
allocate the `np.zeros((state_num, 3))` output (a negative announced count
raises `ValueError` there), then read the state rows.  The second component
collects the chunks written to the worker's stdin. -/
def sim_simulate (frame_width : PyFloat) (upper_shape lower_shape left_wheel right_wheel : List PyFloat)
    (input : List Str) : Except PyErr (List (ℚ × ℚ × ℚ)) × List Str :=
  match (do
    check_num "frame_width".data frame_width
    check_nums "upper_shape".data 5 upper_shape
    check_nums "lower_shape".data 5 lower_shape
    check_nums "left_wheel".data 2 left_wheel
    check_nums "right_wheel".data 2 right_wheel : Except PyErr Unit) with
  | .error e => (.error e, [])
  | .ok _ =>
    let w := "SIM".data ++ car_spec frame_width upper_shape lower_shape left_wheel right_wheel
    match recv input with
    | .error e => (.error e, [w])
    | .ok (line, rest) =>
      match pyInt line with
      | .error e => (.error e, [w])
      | .ok n =>
        if n < 0 then (.error (.valueError "negative dimensions are not allowed".data), [w])
        else
          match recv_states n.toNat rest with
          | .error e => (.error e, [w])
          | .ok (states, _) => (.ok states, [w])

/-- Model of the module-level `simulate` function: it calls
`_simulator.simulate(...)` but has no `return` statement, so (unlike `race`)
it returns Python `None` — modelled as `Unit` — and the computed trace is
discarded. -/
def top_simulate (frame_width : PyFloat) (upper_shape lower_shape left_wheel right_wheel : List PyFloat)
    (input : List Str) : Except PyErr Unit × List Str :=
  let r := sim_simulate frame_width upper_shape lower_shape left_wheel right_wheel input
  (r.1.map (fun _ => ()), r.2)

/-- The chunks written by `Simulator._send_race`: `'RACE %d' % len(cars)`
(no newline after the count) followed by one car-spec line per car. -/
def send_race_chunks (cars : List Car) : List Str :=
  ("RACE ".data ++ natStr cars.length) ::
    cars.map (fun c => car_spec c.1 c.2.1 c.2.2.1 c.2.2.2.1 c.2.2.2.2)

/-- Model of `Simulator.race` (the wrapped method body): validate the car
list, send the race request, read one score row per car.  The second
component collects the chunks written to the worker's stdin; nothing is
written (or read) when validation fails. -/
def sim_race (cars : List Car) (input : List Str) : Except PyErr (List (ℚ × ℚ)) × List Str :=
  match check_cars cars with
  | .error e => (.error e, [])
  | .ok _ =>
    let w := send_race_chunks cars
    match recv_scores cars.length input with
    | .error e => (.error e, w)
    | .ok (scores, _) => (.ok scores, w)

/-- Message of the `SimulatorError` raised when a new track cannot be
generated (the source message ends with a frowning-face emoji, omitted
here). -/
def track_err_msg : Str := "the simulator was not able to generate a new track".data

/-- Model of `Simulator.new_track` (the wrapped method body): write
`'TRACK\n'`, read one reply line with `_recv`; any reply other than the
literal `DONE` raises `SimulatorError`. -/
def sim_new_track (input : List Str) : Except PyErr Unit × List Str :=
  let w := ["TRACK\n".data]
  match recv input with
  | .error e => (.error e, w)
  | .ok (line, _) =>
    if line = "DONE".data then (.ok (), w)
    else (.error (.simulatorError track_err_msg), w)

/-- Model of the `restart_on_broken_pipe` decorator: run the wrapped method
once; only a `BrokenPipeError` triggers `self._restart()` followed by exactly
one re-attempt of the whole method against the post-restart state; every
other outcome (success or any other exception) is passed through unchanged,
and an exception raised by the restart itself propagates. -/
def restart_on_broken_pipe {σ α : Type} (restart : σ → Except PyErr σ)
    (m : σ → Except PyErr α) (s : σ) : Except PyErr α :=
  match m s with
  | .error .brokenPipeError =>
    match restart s with
    | .ok s2 => m s2
    | .error e => .error e
  | r => r

/-- The supervisor state: one alive/dead flag per worker ever spawned (the
index is the spawn generation), the generation currently held by
`self._worker` (`none` only between `_worker = None` and the first spawn),
the last chosen port, and the PRNG state. -/
structure SupSt where
  workers : List Bool
  current : Option ℕ
  port : ℕ
  seed : ℕ
deriving DecidableEq

/-- Model of `random.randint(lo, hi)` (stdlib PRNG, not repository code): an
arbitrary draw determined by the PRNG state, always within `[lo, hi]`. -/
def randint (lo hi seed : ℕ) : ℕ := lo + seed % (hi + 1 - lo)

/-- Model of `Simulator._shutdown`: `assert self._worker is not None`, then
`communicate(timeout=10)`; if the worker exits within the 10-unit grace
period the call returns normally, otherwise `TimeoutExpired` is caught and
the worker is killed.  Either way the held worker ends up dead and no
exception escapes; the worker reference itself is kept (it is not reset to
`None`), so a repeated call still passes the assert.  `communicate` on an
already-terminated worker returns immediately. -/
def sim_shutdown (exitsInGrace : Bool) (s : SupSt) : Except PyErr SupSt :=
  match s.current with
  | none => .error (.assertionError [])
  | some i =>
    if exitsInGrace then .ok { s with workers := s.workers.set i false }
    else .ok { s with workers := s.workers.set i false }

/-- Message of the `SimulatorError` raised when the worker executable cannot
be started (source message ends with a frowning-face emoji, omitted here). -/
def launch_err_msg : Str := "There was an unexpected error starting the simulator".data

/-- Model of `Simulator._restart`: shut the held worker down first (if any),
pick a fresh pseudo-random port in [1025, 0xffff], then spawn the
replacement; an `OSError` from `Popen` (modelled by `spawnOk = false`) is
re-raised as `SimulatorError`. -/
def sim_restart (spawnOk exitsInGrace : Bool) (s : SupSt) : Except PyErr SupSt :=
  match (match s.current with
         | some _ => sim_shutdown exitsInGrace s
         | none => .ok s) with
  | .error e => .error e
  | .ok s1 =>
    let p := randint 1025 65535 s1.seed
    let s2 := { s1 with port := p, seed := s1.seed + 1 }
    if spawnOk then
      .ok { s2 with workers := s2.workers ++ [true], current := some s2.workers.length }
    else .error (.simulatorError launch_err_msg)

/-- Number of live workers in a supervisor state. -/
def aliveCount (s : SupSt) : ℕ := s.workers.count true

/-- The supervisor invariant established by `_start_worker`: a worker is held
and it is the only live one. -/
def goodSt (s : SupSt) : Bool :=
  match s.current with
  | none => false
  | some i => s.workers == (List.replicate s.workers.length false).set i true

/-- The bundled facts about the ten digit characters, settled by computation. -/
theorem digitChar_facts : ∀ d < 10, (digitChar d).isDigit = true ∧
    (digitChar d).isWhitespace = false ∧ digitChar d ≠ 'e' ∧ digitChar d ≠ 'E' ∧
    digitChar d ≠ '-' ∧ digitChar d ≠ '.' ∧ digitVal (digitChar d) = d := by decide

/-- The fuel-driven digit expansion agrees with `Nat.digits` once the fuel
dominates the argument. -/
theorem natDigitsAux_eq : ∀ {f m : ℕ}, m ≤ f → natDigitsAux f m = (Nat.digits 10 m).map digitChar := by
  intro f
  induction f with
  | zero => intro m hm; interval_cases m; simp [natDigitsAux]
  | succ f ih =>
    intro m hm
    match m with
    | 0 => simp [natDigitsAux]
    | k + 1 =>
      have hdiv : (k + 1) / 10 ≤ f := by
        have := Nat.div_lt_self (Nat.succ_pos k) (by norm_num : 1 < 10)
        omega
      rw [Nat.digits_def' (by norm_num : 1 < 10) (Nat.succ_pos k), List.map_cons]
      show digitChar ((k + 1) % 10) :: natDigitsAux f ((k + 1) / 10) = _
      rw [ih hdiv]

/-- Every character of `natStr m` is a decimal digit (and so none of
`e`, `E`, `-`, `.` nor whitespace). -/
theorem natStr_chars (m : ℕ) : ∀ c ∈ natStr m, c.isDigit = true ∧
    c.isWhitespace = false ∧ c ≠ 'e' ∧ c ≠ 'E' ∧ c ≠ '-' ∧ c ≠ '.' := by
  intro c hc
  unfold natStr at hc
  by_cases hm : m = 0
  · rw [if_pos hm] at hc
    simp only [List.mem_singleton] at hc
    subst hc; exact ⟨by decide, by decide, by decide, by decide, by decide, by decide⟩
  · rw [if_neg hm, natDigitsAux_eq (le_refl m), List.mem_reverse, List.mem_map] at hc
    obtain ⟨d, hd, rfl⟩ := hc
    have hlt : d < 10 := Nat.digits_lt_base (by norm_num) hd
    have h := digitChar_facts d hlt
    exact ⟨h.1, h.2.1, h.2.2.1, h.2.2.2.1, h.2.2.2.2.1, h.2.2.2.2.2.1⟩

/-- `natStr` never produces the empty string. -/
theorem natStr_ne_nil (m : ℕ) : natStr m ≠ [] := by
  unfold natStr
  by_cases hm : m = 0
  · rw [if_pos hm]; simp
  · rw [if_neg hm, natDigitsAux_eq (le_refl m)]
    simp [Nat.digits_ne_nil_iff_ne_zero.mpr hm]

/-- Parsing the decimal rendering of a natural number gives it back. -/
theorem digitsVal_natStr (m : ℕ) : digitsVal (natStr m) = m := by
  by_cases hm : m = 0
  · subst hm; rfl
  · rw [natStr, if_neg hm, digitsVal, natDigitsAux_eq (le_refl m),
        List.reverse_reverse, List.map_map]
    have : (Nat.digits 10 m).map (digitVal ∘ digitChar) = Nat.digits 10 m := by
      have h : ∀ d ∈ Nat.digits 10 m, (digitVal ∘ digitChar) d = id d := by
        intro d hd
        exact (digitChar_facts d (Nat.digits_lt_base (by norm_num) hd)).2.2.2.2.2.2
      rw [List.map_congr_left h, List.map_id]
    rw [this, Nat.ofDigits_digits]

/-- `natStr` of a value below `10^6` has at most six characters. -/
theorem natStr_len_le (m : ℕ) (h : m < 10 ^ 6) : (natStr m).length ≤ 6 := by
  by_cases hm : m = 0
  · subst hm; decide
  · rw [natStr, if_neg hm, natDigitsAux_eq (le_refl m)]
    simp only [List.length_reverse, List.length_map]
    rw [Nat.digits_len 10 m (by norm_num) hm]
    have := (Nat.lt_pow_iff_log_lt (by norm_num : 1 < 10) hm).mp h
    omega

/-- A string of zeros contributes nothing to the parsed value. -/
theorem ofDigits_replicate_zero (k : ℕ) : Nat.ofDigits 10 (List.replicate k 0) = 0 := by
  induction k with
  | zero => rfl
  | succ k ih => simp [List.replicate_succ, Nat.ofDigits_cons, ih]

/-- Left-padding with zero characters does not change the parsed value. -/
theorem digitsVal_pad (k : ℕ) (s : Str) :
    digitsVal (List.replicate k '0' ++ s) = digitsVal s := by
  unfold digitsVal
  rw [List.reverse_append, List.reverse_replicate, List.map_append, Nat.ofDigits_append]
  have h0 : digitVal '0' = 0 := by decide
  have : (List.replicate k '0').map digitVal = List.replicate k 0 := by
    rw [List.map_replicate, h0]
  rw [this, ofDigits_replicate_zero]
  simp

/-- Parsing the padded fractional rendering gives the value back. -/
theorem digitsVal_pad6 (m : ℕ) : digitsVal (pad6 m) = m := by
  rw [pad6, digitsVal_pad, digitsVal_natStr]

/-- For values below `10^6` the padded fractional rendering has exactly six
characters. -/
theorem pad6_len (m : ℕ) (h : m < 10 ^ 6) : (pad6 m).length = 6 := by
  rw [pad6, List.length_append, List.length_replicate]
  have := natStr_len_le m h
  omega

/-- Every character of `pad6 m` is a decimal digit. -/
theorem pad6_chars (m : ℕ) : ∀ c ∈ pad6 m, c.isDigit = true ∧
    c.isWhitespace = false ∧ c ≠ 'e' ∧ c ≠ 'E' ∧ c ≠ '-' ∧ c ≠ '.' := by
  intro c hc
  rw [pad6, List.mem_append] at hc
  rcases hc with hc | hc
  · have := List.eq_of_mem_replicate hc
    subst this
    exact ⟨by decide, by decide, by decide, by decide, by decide, by decide⟩
  · exact natStr_chars m c hc

/-- `pad6` never produces the empty string. -/
theorem pad6_ne_nil (m : ℕ) : pad6 m ≠ [] := by
  rw [pad6]
  intro h
  rw [List.append_eq_nil] at h
  exact natStr_ne_nil m h.2

/-- `takeWhile` passes over a block that satisfies the predicate. -/
theorem takeWhile_append_of_all (p : Char → Bool) :
    ∀ (l1 l2 : Str), (∀ c ∈ l1, p c = true) → (l1 ++ l2).takeWhile p = l1 ++ l2.takeWhile p := by
  intro l1
  induction l1 with
  | nil => intro l2 _; simp
  | cons c t ih =>
    intro l2 h
    have hc := h c (List.mem_cons_self c t)
    rw [List.cons_append, List.takeWhile_cons, if_pos hc,
        ih l2 (fun x hx => h x (List.mem_cons_of_mem c hx)), List.cons_append]

/-- `dropWhile` consumes a block that satisfies the predicate. -/
theorem dropWhile_append_of_all (p : Char → Bool) :
    ∀ (l1 l2 : Str), (∀ c ∈ l1, p c = true) → (l1 ++ l2).dropWhile p = l2.dropWhile p := by
  intro l1
  induction l1 with
  | nil => intro l2 _; simp
  | cons c t ih =>
    intro l2 h
    have hc := h c (List.mem_cons_self c t)
    simp only [List.cons_append, List.dropWhile_cons, hc]
    exact ih l2 (fun x hx => h x (List.mem_cons_of_mem c hx))

/-- Parsing an unsigned rendering `whole.frac` recovers the carried value. -/
theorem parseUFixed_render (W F : ℕ) (hF : F < 10 ^ 6) :
    parseUFixed (natStr W ++ ('.' :: pad6 F)) = some ((W : ℚ) + (F : ℚ) / 1000000) := by
  unfold parseUFixed
  have hdig : ∀ c ∈ natStr W, Char.isDigit c = true := fun c hc => (natStr_chars W c hc).1
  rw [takeWhile_append_of_all _ _ _ hdig, dropWhile_append_of_all _ _ _ hdig]
  have hdot : List.takeWhile Char.isDigit ('.' :: pad6 F) = [] := by
    simp [List.takeWhile_cons]
  have hdot2 : List.dropWhile Char.isDigit ('.' :: pad6 F) = '.' :: pad6 F := by
    simp [List.dropWhile_cons]
  rw [hdot, hdot2, List.append_nil]
  rw [if_neg (by simpa using natStr_ne_nil W)]
  show (if '.' = '.' ∧ pad6 F ≠ [] ∧ (pad6 F).all Char.isDigit then
          some ((digitsVal (natStr W) : ℚ) + (digitsVal (pad6 F) : ℚ) / 10 ^ (pad6 F).length)
        else none) = some ((W : ℚ) + (F : ℚ) / 1000000)
  rw [if_pos ⟨rfl, pad6_ne_nil F, by
    rw [List.all_eq_true]; intro c hc; exact (pad6_chars F c hc).1⟩]
  rw [digitsVal_natStr, digitsVal_pad6, pad6_len F hF]
  norm_num

/-- The rounded scaled value is non-negative when the input is. -/
theorem round_scaled_nonneg (q : ℚ) (h : ¬q < 0) : 0 ≤ round (q * 1000000) := by
  rw [round_eq]
  rw [Int.le_floor]
  push_cast
  nlinarith [not_lt.mp h]

/-- The rounded scaled value is non-positive when the input is negative. -/
theorem round_scaled_nonpos (q : ℚ) (h : q < 0) : round (q * 1000000) ≤ 0 := by
  rw [round_eq]
  have : ⌊q * 1000000 + 1 / 2⌋ < 1 := by
    rw [Int.floor_lt]
    push_cast
    nlinarith
  omega

/-- Splitting the whole and fractional part of the scaled magnitude. -/
theorem whole_frac (a : ℕ) :
    ((a / 1000000 : ℕ) : ℚ) + ((a % 1000000 : ℕ) : ℚ) / 1000000 = (a : ℚ) / 1000000 := by
  field_simp
  norm_cast
  omega


/-- Parsing the `%f` rendering of a finite float recovers exactly the value
rounded to six decimal places. -/
theorem parseFixed_fmtF (q : ℚ) : parseFixed (fmtF (.finite q)) = some (round6 q) := by
  simp only [fmtF, round6]
  set n : ℤ := round (q * 1000000) with hn
  have hmod : n.natAbs % 1000000 < 10 ^ 6 :=
    Nat.mod_lt n.natAbs (by norm_num)
  by_cases hq : q < 0
  · rw [if_pos hq, List.singleton_append, parseFixed, if_pos rfl,
        parseUFixed_render _ _ hmod, Option.map_some', whole_frac]
    have hnp : n ≤ 0 := round_scaled_nonpos q hq
    have hcast : ((n.natAbs : ℕ) : ℚ) = -((n : ℤ) : ℚ) := by
      rw [Int.cast_natAbs]
      exact_mod_cast abs_of_nonpos hnp
    rw [hcast]
    congr 1
    ring
  · rw [if_neg hq, List.nil_append]
    cases hW : natStr (n.natAbs / 1000000) with
    | nil => exact absurd hW (natStr_ne_nil _)
    | cons c t =>
      have hc : c ∈ natStr (n.natAbs / 1000000) := by rw [hW]; exact List.mem_cons_self c t
      have hcne : c ≠ '-' := (natStr_chars _ c hc).2.2.2.2.1
      rw [List.cons_append, parseFixed, if_neg hcne, ← List.cons_append, ← hW,
          parseUFixed_render _ _ hmod, whole_frac]
      have hnn : 0 ≤ n := round_scaled_nonneg q hq
      have hcast : ((n.natAbs : ℕ) : ℚ) = ((n : ℤ) : ℚ) := by
        rw [Int.cast_natAbs]
        exact_mod_cast abs_of_nonneg hnn
      rw [hcast]

/-- The six-decimal rounding moves a value by at most half of the last
printed digit. -/
theorem round6_close (q : ℚ) : |round6 q - q| ≤ 1 / 2000000 := by
  unfold round6
  have h := abs_sub_round (q * 1000000)
  rw [abs_sub_comm] at h
  have heq : (round (q * 1000000) : ℚ) / 1000000 - q
      = ((round (q * 1000000) : ℚ) - q * 1000000) / 1000000 := by ring
  rw [heq, abs_div, abs_of_pos (by norm_num : (0 : ℚ) < 1000000)]
  rw [show (1 : ℚ) / 2000000 = (1 / 2) / 1000000 by norm_num]
  gcongr

/-- The `%f` rendering of a finite float contains no whitespace character and
no exponent marker. -/
theorem fmtF_finite_chars (q : ℚ) : ∀ c ∈ fmtF (.finite q),
    c.isWhitespace = false ∧ c ≠ 'e' ∧ c ≠ 'E' := by
  intro c hc
  simp only [fmtF] at hc
  rw [List.mem_append] at hc
  rcases hc with hc | hc
  · by_cases hq : q < 0
    · rw [if_pos hq] at hc
      simp only [List.mem_singleton] at hc
      subst hc
      exact ⟨by decide, by decide, by decide⟩
    · rw [if_neg hq] at hc
      simp at hc
  · rw [List.mem_append] at hc
    rcases hc with hc | hc
    · have h := natStr_chars _ c hc
      exact ⟨h.2.1, h.2.2.1, h.2.2.2.1⟩
    · rw [List.mem_cons] at hc
      rcases hc with rfl | hc
      · exact ⟨by decide, by decide, by decide⟩
      · have h := pad6_chars _ c hc
        exact ⟨h.2.1, h.2.2.1, h.2.2.2.1⟩

/-- The `%f` rendering of a finite float is never the empty string. -/
theorem fmtF_finite_ne_nil (q : ℚ) : fmtF (.finite q) ≠ [] := by
  simp only [fmtF]
  intro h
  rw [List.append_eq_nil, List.append_eq_nil] at h
  exact List.cons_ne_nil _ _ h.2.2

/-- The fifteen values of a car-spec line, in protocol order: frame_width,
upper_shape[0..4], lower_shape[0..4], left_wheel[0..1], right_wheel[0..1]. -/
def car_vals (frame_width : PyFloat) (upper_shape lower_shape left_wheel right_wheel : List PyFloat) : List PyFloat :=
  [frame_width,
   upper_shape.getD 0 pyZero, upper_shape.getD 1 pyZero, upper_shape.getD 2 pyZero,
   upper_shape.getD 3 pyZero, upper_shape.getD 4 pyZero,
   lower_shape.getD 0 pyZero, lower_shape.getD 1 pyZero, lower_shape.getD 2 pyZero,
   lower_shape.getD 3 pyZero, lower_shape.getD 4 pyZero,
   left_wheel.getD 0 pyZero, left_wheel.getD 1 pyZero,
   right_wheel.getD 0 pyZero, right_wheel.getD 1 pyZero]

/-- The fifteen formatted tokens of a car-spec line. -/
def car_tokens (frame_width : PyFloat) (upper_shape lower_shape left_wheel right_wheel : List PyFloat) : List Str :=
  (car_vals frame_width upper_shape lower_shape left_wheel right_wheel).map fmtF

/-- A token list joined in the car-spec wire shape: each token preceded by one
space, and one final newline. -/
def wire_join (ts : List Str) : Str :=
  (ts.map (fun t => ' ' :: t)).flatten ++ ['\n']

/-- The car-spec line is its fifteen tokens in wire shape. -/
theorem car_spec_eq_join (fw : PyFloat) (us ls lw rw : List PyFloat) :
    car_spec fw us ls lw rw = wire_join (car_tokens fw us ls lw rw) := by
  simp [car_spec, car_tokens, car_vals, wire_join, List.append_assoc]

/-- `splitWsAux` absorbs a whitespace-free block into the accumulator. -/
theorem splitWsAux_chew : ∀ (w rest acc : Str), (∀ c ∈ w, c.isWhitespace = false) →
    splitWsAux (w ++ rest) acc = splitWsAux rest (w.reverse ++ acc) := by
  intro w
  induction w with
  | nil => intro rest acc _; simp
  | cons c t ih =>
    intro rest acc h
    have hc : c.isWhitespace = false := h c (List.mem_cons_self c t)
    rw [List.cons_append]
    rw [splitWsAux, if_neg (by simp [hc])]
    rw [ih rest (c :: acc) (fun x hx => h x (List.mem_cons_of_mem c hx))]
    simp [List.append_assoc]

/-- `splitWsAux` on a whitespace character with an empty accumulator skips. -/
theorem splitWsAux_skip (c : Char) (t : Str) (h : c.isWhitespace = true) :
    splitWsAux (c :: t) [] = splitWsAux t [] := by
  rw [splitWsAux, if_pos h, if_pos rfl]

/-- `splitWsAux` on a whitespace character flushes a non-empty accumulator. -/
theorem splitWsAux_flush (c : Char) (t acc : Str) (h : c.isWhitespace = true) (ha : acc ≠ []) :
    splitWsAux (c :: t) acc = acc.reverse :: splitWsAux t [] := by
  rw [splitWsAux, if_pos h, if_neg ha]

/-- Python `.split()` recovers the tokens from a wire-joined line, provided
every token is non-empty and whitespace-free. -/
theorem splitWs_wire_join : ∀ ts : List Str,
    (∀ t ∈ ts, t ≠ [] ∧ ∀ c ∈ t, c.isWhitespace = false) →
    splitWs (wire_join ts) = ts := by
  intro ts
  induction ts with
  | nil => intro _; rfl
  | cons t ts ih =>
    intro h
    obtain ⟨ht, hws⟩ := h t (List.mem_cons_self t ts)
    have hrev : t.reverse ≠ [] := by simpa using ht
    have hw : wire_join (t :: ts) = ' ' :: (t ++ ((ts.map (fun t => ' ' :: t)).flatten ++ ['\n'])) := by
      simp [wire_join, List.append_assoc]
    rw [splitWs, hw, splitWsAux_skip ' ' _ (by decide), splitWsAux_chew t _ [] hws, List.append_nil]
    cases ts with
    | nil =>
      simp only [List.map_nil, List.flatten_nil, List.nil_append]
      rw [splitWsAux_flush '\n' [] t.reverse (by decide) hrev]
      simp [splitWsAux]
    | cons u ts2 =>
      have hw2 : ((u :: ts2).map (fun t => ' ' :: t)).flatten ++ ['\n']
          = ' ' :: (u ++ ((ts2.map (fun t => ' ' :: t)).flatten ++ ['\n'])) := by
        simp [List.append_assoc]
      rw [hw2, splitWsAux_flush ' ' _ t.reverse (by decide) hrev, List.reverse_reverse]
      have h2 := ih (fun x hx => h x (List.mem_cons_of_mem t hx))
      have hw3 : wire_join (u :: ts2) = ' ' :: (u ++ ((ts2.map (fun t => ' ' :: t)).flatten ++ ['\n'])) := by
        simp [wire_join, List.append_assoc]
      rw [splitWs, hw3, splitWsAux_skip ' ' _ (by decide)] at h2
      rw [h2]

/-- The wire shape of a non-empty token list is a single leading space, the
tokens joined by single spaces, and one trailing newline. -/
theorem wire_join_eq_intercalate : ∀ (ts : List Str), ts ≠ [] →
    wire_join ts = ' ' :: (List.intercalate [' '] ts ++ ['\n']) := by
  intro ts
  induction ts with
  | nil => intro h; exact absurd rfl h
  | cons t ts ih =>
    intro _
    cases ts with
    | nil => simp [wire_join, List.intercalate]
    | cons u ts2 =>
      have h1 : wire_join (t :: u :: ts2) = ' ' :: (t ++ wire_join (u :: ts2)) := by
        simp [wire_join, List.append_assoc]
      have h2 : List.intercalate [' '] (t :: u :: ts2)
          = t ++ (' ' :: List.intercalate [' '] (u :: ts2)) := by
        simp [List.intercalate]
      rw [h1, ih (List.cons_ne_nil u ts2), h2]
      simp [List.append_assoc]

/-- Indexing with a finite default into a list of finite values is finite. -/
theorem getD_finite {l : List PyFloat} (h : ∀ x ∈ l, x.isFinite = true) (i : ℕ) :
    (l.getD i pyZero).isFinite = true := by
  by_cases hi : i < l.length
  · rw [List.getD_eq_getElem l pyZero hi]
    exact h _ (List.getElem_mem hi)
  · rw [List.getD_eq_default l pyZero (le_of_not_lt hi)]
    rfl

/-- If the four containers hold finite values, so do all fifteen car-spec
values. -/
theorem car_vals_finite (fw : PyFloat) (us ls lw rw : List PyFloat)
    (hfw : fw.isFinite = true)
    (hrest : ∀ x ∈ us ++ ls ++ lw ++ rw, x.isFinite = true) :
    ∀ x ∈ car_vals fw us ls lw rw, x.isFinite = true := by
  have hus : ∀ x ∈ us, x.isFinite = true := fun x hx => hrest x (by simp [hx])
  have hls : ∀ x ∈ ls, x.isFinite = true := fun x hx => hrest x (by simp [hx])
  have hlw : ∀ x ∈ lw, x.isFinite = true := fun x hx => hrest x (by simp [hx])
  have hrw : ∀ x ∈ rw, x.isFinite = true := fun x hx => hrest x (by simp [hx])
  intro x hx
  simp only [car_vals, List.mem_cons, List.not_mem_nil, or_false] at hx
  rcases hx with rfl | rfl | rfl | rfl | rfl | rfl | rfl | rfl | rfl | rfl | rfl | rfl | rfl | rfl | rfl
  exacts [hfw, getD_finite hus 0, getD_finite hus 1, getD_finite hus 2, getD_finite hus 3,
    getD_finite hus 4, getD_finite hls 0, getD_finite hls 1, getD_finite hls 2,
    getD_finite hls 3, getD_finite hls 4, getD_finite hlw 0, getD_finite hlw 1,
    getD_finite hrw 0, getD_finite hrw 1]

/-- A finite `PyFloat` carries a rational. -/
theorem isFinite_exists {x : PyFloat} (h : x.isFinite = true) : ∃ q : ℚ, x = .finite q := by
  cases x with
  | finite q => exact ⟨q, rfl⟩
  | inf => simp [PyFloat.isFinite] at h
  | neginf => simp [PyFloat.isFinite] at h
  | nan => simp [PyFloat.isFinite] at h

/-- C4: for every car spec whose fifteen values are finite numbers, the
encoded request line consists of exactly fifteen fixed-point formatted
numbers in the protocol order frame_width, upper_shape[0..4],
lower_shape[0..4], left_wheel[0..1], right_wheel[0..1], separated by single
spaces, with a single leading space before the first number and exactly one
trailing newline. -/
theorem car_spec_line_shape (fw : PyFloat) (us ls lw rw : List PyFloat)
    (hfw : fw.isFinite = true)
    (hrest : ∀ x ∈ us ++ ls ++ lw ++ rw, x.isFinite = true) :
    (car_tokens fw us ls lw rw).length = 15 ∧
    (∀ t ∈ car_tokens fw us ls lw rw,
      t ≠ [] ∧ (parseFixed t).isSome = true ∧ ∀ c ∈ t, c.isWhitespace = false) ∧
    car_spec fw us ls lw rw
      = ' ' :: (List.intercalate [' '] (car_tokens fw us ls lw rw) ++ ['\n']) := by
  refine ⟨rfl, ?_, ?_⟩
  · intro t ht
    obtain ⟨x, hx, rfl⟩ := List.mem_map.mp ht
    obtain ⟨q, rfl⟩ := isFinite_exists (car_vals_finite fw us ls lw rw hfw hrest x hx)
    refine ⟨fmtF_finite_ne_nil q, ?_, fun c hc => (fmtF_finite_chars q c hc).1⟩
    rw [parseFixed_fmtF]
    rfl
  · rw [car_spec_eq_join]
    exact wire_join_eq_intercalate _ (by simp [car_tokens, car_vals])

/-- Witness for `car_spec_line_shape` at a concrete all-finite car spec. -/
theorem car_spec_line_shape_witness :
    ((PyFloat.finite 1).isFinite = true ∧
      ∀ x ∈ (List.replicate 5 pyZero ++ List.replicate 5 pyZero ++
             List.replicate 2 pyZero ++ List.replicate 2 pyZero), x.isFinite = true) ∧
    (car_tokens (.finite 1) (List.replicate 5 pyZero) (List.replicate 5 pyZero)
        (List.replicate 2 pyZero) (List.replicate 2 pyZero)).length = 15 :=
  ⟨⟨rfl, by decide⟩,
   (car_spec_line_shape (.finite 1) (List.replicate 5 pyZero) (List.replicate 5 pyZero)
        (List.replicate 2 pyZero) (List.replicate 2 pyZero) rfl (by decide)).1⟩

/-- C5: encoding a valid car spec and splitting the encoded line back into
whitespace-separated tokens yields exactly the fifteen formatted numeric
tokens, and each token parses back to the original value rounded to six
decimal places, i.e. within the fixed-point formatting precision of half a
unit in the last printed digit. -/
theorem car_spec_roundtrip
    (v1 v2 v3 v4 v5 v6 v7 v8 v9 v10 v11 v12 v13 v14 v15 : ℚ) :
    splitWs (car_spec (.finite v1)
        [.finite v2, .finite v3, .finite v4, .finite v5, .finite v6]
        [.finite v7, .finite v8, .finite v9, .finite v10, .finite v11]
        [.finite v12, .finite v13] [.finite v14, .finite v15])
      = [v1, v2, v3, v4, v5, v6, v7, v8, v9, v10, v11, v12, v13, v14, v15].map
          (fun v => fmtF (.finite v)) ∧
    ([v1, v2, v3, v4, v5, v6, v7, v8, v9, v10, v11, v12, v13, v14, v15].map
          (fun v => fmtF (.finite v))).length = 15 ∧
    (∀ v : ℚ, parseFixed (fmtF (.finite v)) = some (round6 v) ∧
      |round6 v - v| ≤ 1 / 2000000) := by
  refine ⟨?_, rfl, fun v => ⟨parseFixed_fmtF v, round6_close v⟩⟩
  have he : car_spec (.finite v1)
        [.finite v2, .finite v3, .finite v4, .finite v5, .finite v6]
        [.finite v7, .finite v8, .finite v9, .finite v10, .finite v11]
        [.finite v12, .finite v13] [.finite v14, .finite v15]
      = wire_join ([v1, v2, v3, v4, v5, v6, v7, v8, v9, v10, v11, v12, v13, v14, v15].map
          (fun v => fmtF (.finite v))) :=
    (car_spec_eq_join _ _ _ _ _).trans rfl
  rw [he]
  apply splitWs_wire_join
  intro t ht
  obtain ⟨v, -, rfl⟩ := List.mem_map.mp ht
  exact ⟨fmtF_finite_ne_nil v, fun c hc => (fmtF_finite_chars v c hc).1⟩

/-- C8 (amended): every finite numeric value crossing the boundary on the
emit side is formatted in fixed notation — an optionally signed digit string
with a decimal point, never scientific notation and never whitespace — and
its token parses back as a fixed-notation number. -/
theorem fmtF_finite_fixed_form (q : ℚ) :
    (parseFixed (fmtF (.finite q))).isSome = true ∧
    parseFixed (fmtF (.finite q)) = some (round6 q) ∧
    (∀ c ∈ fmtF (.finite q), c ≠ 'e' ∧ c ≠ 'E' ∧ c.isWhitespace = false) := by
  refine ⟨by rw [parseFixed_fmtF]; rfl, parseFixed_fmtF q, fun c hc => ?_⟩
  obtain ⟨h1, h2, h3⟩ := fmtF_finite_chars q c hc
  exact ⟨h2, h3, h1⟩

/-- C8 counterexample: `float('nan')` has Python type `float`, a member of
`NUM_T`, so the validation layer accepts it, and the `%f` codec then emits
the literal token `nan`, which is not a finite fixed-notation number (its
parse fails). -/
theorem check_num_accepts_nan_and_emits_nan :
    check_num "frame_width".data PyFloat.nan = .ok () ∧
    PyFloat.nan.isFinite = false ∧
    fmtF PyFloat.nan = "nan".data ∧
    parseFixed (fmtF PyFloat.nan) = none := by decide

/-- C2 (amended): a reply line read through `_recv` — the state-count line of
`simulate`, the first score line of `race`, the reply of `new_track` — that
begins with the four characters `ERR ` raises `SimulationError` carrying
exactly the rest of the line, it is never returned for numeric parsing, and
the resilient wrapper never retries a `SimulationError`. -/
theorem recv_err_line_raises_simulation_error (line : Str) (rest : List Str)
    (h : err_tag.isPrefixOf (rstrip line) = true) :
    recv (line :: rest) = .error (.simulationError ((rstrip line).drop 4)) ∧
    (∀ (σ a : Type) (restart : σ → Except PyErr σ) (s : σ) (msg : Str),
      restart_on_broken_pipe restart (fun _ => (.error (.simulationError msg) : Except PyErr a)) s
        = .error (.simulationError msg)) := by
  constructor
  · simp [recv, readLine, h]
  · intro σ a restart s msg
    rfl

/-- Witness for `recv_err_line_raises_simulation_error` on the concrete line
`ERR track generation failed`. -/
theorem recv_err_line_raises_simulation_error_witness :
    err_tag.isPrefixOf (rstrip "ERR track generation failed".data) = true ∧
    recv ("ERR track generation failed".data :: [])
      = .error (.simulationError "track generation failed".data) :=
  ⟨by decide,
   ((recv_err_line_raises_simulation_error "ERR track generation failed".data [] (by decide)).1).trans
     (by decide)⟩

/-- C2 counterexample: during `simulate` the state lines are read directly,
without the `ERR ` check of `_recv`; a state line `ERR boom` is handed to the
numeric converter and raises `ValueError`, not `SimulationError`. -/
theorem state_err_line_not_simulation_error :
    (sim_simulate pyZero (List.replicate 5 pyZero) (List.replicate 5 pyZero)
        (List.replicate 2 pyZero) (List.replicate 2 pyZero)
        ["1".data, "ERR boom".data]).1
      = .error (.valueError ('f' :: 'l' :: 'o' :: 'a' :: 't' :: [])) ∧
    (sim_simulate pyZero (List.replicate 5 pyZero) (List.replicate 5 pyZero)
        (List.replicate 2 pyZero) (List.replicate 2 pyZero)
        ["1".data, "ERR boom".data]).1
      ≠ .error (.simulationError "boom".data) := by decide

/-- C3 (code bug): on a successful call the wrapped `Simulator.simulate`
returns the trace with one row per announced state (here two), but the
module-level `simulate` has no `return` statement, so the caller receives
`None` and the trace is discarded. -/
theorem simulate_discards_trace :
    (∃ tr, (sim_simulate pyZero (List.replicate 5 pyZero) (List.replicate 5 pyZero)
        (List.replicate 2 pyZero) (List.replicate 2 pyZero)
        ["2".data, "1.0 2.0 3.0".data, "4.0 5.0 6.0".data]).1 = .ok tr ∧ tr.length = 2) ∧
    (top_simulate pyZero (List.replicate 5 pyZero) (List.replicate 5 pyZero)
        (List.replicate 2 pyZero) (List.replicate 2 pyZero)
        ["2".data, "1.0 2.0 3.0".data, "4.0 5.0 6.0".data]).1 = .ok () := by
  refine ⟨⟨_, rfl, rfl⟩, rfl⟩

/-- C1: the resilient wrapper passes a success straight through, propagates
every non-broken-pipe failure immediately with no restart, performs exactly
one restart on a broken pipe and re-attempts the whole operation once against
the post-restart state, and propagates a failure of the restart itself
(e.g. a launch error) immediately. -/
theorem restart_on_broken_pipe_policy {σ α : Type} (restart : σ → Except PyErr σ)
    (m : σ → Except PyErr α) (s : σ) :
    (∀ a, m s = .ok a → restart_on_broken_pipe restart m s = .ok a) ∧
    (∀ e, m s = .error e → e ≠ .brokenPipeError →
      restart_on_broken_pipe restart m s = .error e) ∧
    (m s = .error .brokenPipeError → ∀ e, restart s = .error e →
      restart_on_broken_pipe restart m s = .error e) ∧
    (m s = .error .brokenPipeError → ∀ s2, restart s = .ok s2 →
      restart_on_broken_pipe restart m s = m s2) := by
  refine ⟨?_, ?_, ?_, ?_⟩
  · intro a h
    simp [restart_on_broken_pipe, h]
  · intro e h hne
    cases e <;> simp_all [restart_on_broken_pipe]
  · intro h e he
    simp [restart_on_broken_pipe, h, he]
  · intro h s2 h2
    simp [restart_on_broken_pipe, h, h2]

/-- Witness for `restart_on_broken_pipe_policy`: a worker that breaks the
pipe once and then succeeds; the wrapped call restarts once and returns the
second attempt's result. -/
theorem restart_on_broken_pipe_policy_witness :
    (fun n : ℕ => if n = 0 then (.error .brokenPipeError : Except PyErr ℕ) else .ok (n + 41)) 0
      = .error .brokenPipeError ∧
    restart_on_broken_pipe (fun n : ℕ => .ok (n + 1))
      (fun n : ℕ => if n = 0 then (.error .brokenPipeError : Except PyErr ℕ) else .ok (n + 41)) 0
      = .ok 42 :=
  ⟨rfl,
   ((restart_on_broken_pipe_policy (fun n : ℕ => .ok (n + 1))
      (fun n : ℕ => if n = 0 then (.error .brokenPipeError : Except PyErr ℕ) else .ok (n + 41))
      0).2.2.2 rfl 1 rfl).trans rfl⟩

/-- Setting a position of an all-false list to false changes nothing. -/
theorem set_replicate_false (n i : ℕ) :
    (List.replicate n false).set i false = List.replicate n false := by
  induction n generalizing i with
  | zero => rfl
  | succ n ih =>
    cases i with
    | zero => rw [List.replicate_succ, List.set_cons_zero]
    | succ i => rw [List.replicate_succ, List.set_cons_succ, ih, ← List.replicate_succ]

/-- Flipping the last flag of an all-false list appends a live worker. -/
theorem set_last_replicate (n : ℕ) :
    (List.replicate (n + 1) false).set n true = List.replicate n false ++ [true] := by
  induction n with
  | zero => rfl
  | succ n ih =>
    rw [List.replicate_succ, List.set_cons_succ, ih, List.replicate_succ, List.cons_append]

/-- An all-false worker list holds no live worker. -/
theorem count_true_replicate_false (n : ℕ) : (List.replicate n false).count true = 0 := by
  rw [List.count_eq_zero]
  simp [List.mem_replicate]

/-- The modelled `random.randint(lo, hi)` draw always lies in `[lo, hi]`. -/
theorem randint_mem (lo hi seed : ℕ) (h : lo ≤ hi) :
    lo ≤ randint lo hi seed ∧ randint lo hi seed ≤ hi := by
  unfold randint
  have := Nat.mod_lt seed (show 0 < hi + 1 - lo by omega)
  omega

/-- C6: when the supervisor holds its single live worker, `_restart` first
shuts that worker down — so no worker is alive just before the replacement is
spawned — then draws a fresh pseudo-random port in [1025, 65535]; after a
successful return the supervisor again holds exactly one live worker (the new
one), never two and never zero. -/
theorem restart_single_live_worker (s : SupSt) (g : Bool) (h : goodSt s = true) :
    (∃ s1, sim_shutdown g s = .ok s1 ∧ aliveCount s1 = 0) ∧
    (∀ s2, sim_restart true g s = .ok s2 →
      aliveCount s2 = 1 ∧ goodSt s2 = true ∧
      s2.port = randint 1025 65535 s.seed ∧ 1025 ≤ s2.port ∧ s2.port ≤ 65535) := by
  cases hc : s.current with
  | none => simp [goodSt, hc] at h
  | some i =>
    simp only [goodSt, hc, beq_iff_eq] at h
    obtain ⟨n, hn⟩ : ∃ n, s.workers.length = n := ⟨_, rfl⟩
    rw [hn] at h
    have hdead : s.workers.set i false = List.replicate n false := by
      rw [h, List.set_set, set_replicate_false]
    have hcount : aliveCount { s with workers := s.workers.set i false } = 0 := by
      show (s.workers.set i false).count true = 0
      rw [hdead, count_true_replicate_false]
    constructor
    · refine ⟨{ s with workers := s.workers.set i false }, ?_, hcount⟩
      cases g <;> simp [sim_shutdown, hc]
    · intro s2 h2
      have hres : sim_restart true g s = .ok
          { s with workers := (s.workers.set i false) ++ [true],
                   current := some (s.workers.set i false).length,
                   port := randint 1025 65535 s.seed,
                   seed := s.seed + 1 } := by
        cases g <;> simp [sim_restart, sim_shutdown, hc]
      rw [hres] at h2
      obtain rfl := Except.ok.inj h2
      have hlen : (s.workers.set i false).length = n := by
        rw [List.length_set, hn]
      refine ⟨?_, ?_, rfl, (randint_mem 1025 65535 s.seed (by norm_num)).1,
        (randint_mem 1025 65535 s.seed (by norm_num)).2⟩
      · show ((s.workers.set i false) ++ [true]).count true = 1
        rw [List.count_append, hdead, count_true_replicate_false]
        rfl
      · show ((s.workers.set i false) ++ [true]
            == (List.replicate ((s.workers.set i false) ++ [true]).length false).set
                 (s.workers.set i false).length true) = true
        rw [beq_iff_eq, hlen, hdead]
        rw [show (List.replicate n false ++ [true]).length = n + 1 from by simp]
        rw [set_last_replicate]

/-- Witness for `restart_single_live_worker`: a supervisor holding one live
worker restarts into a state that again holds exactly one live worker, on a
fresh in-range port. -/
theorem restart_single_live_worker_witness :
    goodSt (SupSt.mk [true] (some 0) 8111 0) = true ∧
    (aliveCount (SupSt.mk [false, true] (some 1) 1025 1) = 1 ∧
     goodSt (SupSt.mk [false, true] (some 1) 1025 1) = true ∧
     (SupSt.mk [false, true] (some 1) 1025 1).port = randint 1025 65535 0 ∧
     1025 ≤ (SupSt.mk [false, true] (some 1) 1025 1).port ∧
     (SupSt.mk [false, true] (some 1) 1025 1).port ≤ 65535) :=
  ⟨by decide,
   (restart_single_live_worker (SupSt.mk [true] (some 0) 8111 0) true (by decide)).2
     (SupSt.mk [false, true] (some 1) 1025 1) (by decide)⟩

/-- C9: once a worker has been spawned, `_shutdown` can be invoked any number
of times in succession — e.g. once explicitly and once again from the exit
hook after the worker has already been terminated — and every invocation
completes without raising: the assert still sees a (dead) worker object and
`communicate` on a terminated process returns immediately. -/
theorem shutdown_idempotent (s : SupSt) (g1 g2 : Bool) (h : s.current.isSome = true) :
    ∃ s1 s2, sim_shutdown g1 s = .ok s1 ∧ sim_shutdown g2 s1 = .ok s2 := by
  obtain ⟨i, hi⟩ := Option.isSome_iff_exists.mp h
  refine ⟨{ s with workers := s.workers.set i false },
          { s with workers := (s.workers.set i false).set i false }, ?_, ?_⟩
  · cases g1 <;> simp [sim_shutdown, hi]
  · cases g2 <;> simp [sim_shutdown, hi]

/-- Witness for `shutdown_idempotent` on a concrete one-worker supervisor. -/
theorem shutdown_idempotent_witness :
    (SupSt.mk [true] (some 0) 2000 0).current.isSome = true ∧
    (∃ s1 s2, sim_shutdown true (SupSt.mk [true] (some 0) 2000 0) = .ok s1 ∧
      sim_shutdown true s1 = .ok s2) :=
  ⟨rfl, shutdown_idempotent (SupSt.mk [true] (some 0) 2000 0) true true rfl⟩

/-- C10: a worker spawn failure surfaces as `SimulatorError`, and a
`new_track` reply that is neither `DONE` nor an `ERR ` line also surfaces as
`SimulatorError` — the same exception type, so a caller cannot tell a launch
failure from a track-generation failure by type alone. -/
theorem launch_and_track_failures_same_type (g : Bool) (s : SupSt) (line : Str)
    (rest : List Str)
    (h1 : err_tag.isPrefixOf (rstrip line) = false)
    (h2 : rstrip line ≠ "DONE".data) :
    sim_restart false g s = .error (.simulatorError launch_err_msg) ∧
    (sim_new_track (line :: rest)).1 = .error (.simulatorError track_err_msg) ∧
    (PyErr.simulatorError launch_err_msg).isSimulatorError = true ∧
    (PyErr.simulatorError track_err_msg).isSimulatorError = true := by
  refine ⟨?_, ?_, rfl, rfl⟩
  · cases hc : s.current with
    | none => simp [sim_restart, hc]
    | some i => cases g <;> simp [sim_restart, sim_shutdown, hc]
  · simp [sim_new_track, recv, readLine, h1, h2]

/-- Witness for `launch_and_track_failures_same_type` on the reply `FAIL`. -/
theorem launch_and_track_failures_same_type_witness :
    err_tag.isPrefixOf (rstrip "FAIL".data) = false ∧
    rstrip "FAIL".data ≠ "DONE".data ∧
    sim_restart false true (SupSt.mk [true] (some 0) 2000 0)
      = .error (.simulatorError launch_err_msg) ∧
    (sim_new_track ("FAIL".data :: [])).1 = .error (.simulatorError track_err_msg) :=
  ⟨by decide, by decide,
   (launch_and_track_failures_same_type true (SupSt.mk [true] (some 0) 2000 0)
      "FAIL".data [] (by decide) (by decide)).1,
   (launch_and_track_failures_same_type true (SupSt.mk [true] (some 0) 2000 0)
      "FAIL".data [] (by decide) (by decide)).2.1⟩

/-- The per-car validation loop succeeds on every list of well-shaped cars. -/
theorem check_cars_each_ok : ∀ (cars : List Car) (idx : ℕ),
    (∀ c ∈ cars, c.2.1.length = 5 ∧ c.2.2.1.length = 5 ∧
      c.2.2.2.1.length = 2 ∧ c.2.2.2.2.length = 2) →
    check_cars_each idx cars = .ok () := by
  intro cars
  induction cars with
  | nil => intro idx _; rfl
  | cons c t ih =>
    intro idx h
    obtain ⟨fw, us, ls, lw, rw⟩ := c
    obtain ⟨h1, h2, h3, h4⟩ := h _ (List.mem_cons_self _ _)
    simp only [check_cars_each, check_num, check_nums] at h1 h2 h3 h4 ⊢
    simp only [h1, h2, h3, h4, if_pos]
    simp only [pure, Except.pure, bind, Except.bind, if_true]
    exact ih (idx + 1) (fun x hx => h x (List.mem_cons_of_mem _ hx))

/-- C7: a race request with 0 cars is rejected before anything is written to
(or read from) the worker; a request with 101 cars is likewise rejected
before any I/O; a request with exactly 100 well-shaped cars passes validation
and proceeds to be sent on the wire. -/
theorem race_validation_boundary :
    (∀ input, sim_race [] input
      = (.error (.assertionError "cars should not be an empty list".data), [])) ∧
    (∀ (cars : List Car) input, cars.length = 101 →
      sim_race cars input
        = (.error (.assertionError
            "you have provided too many cars (use a number less or equal to 100)".data), [])) ∧
    (∀ (cars : List Car) input, cars.length = 100 →
      (∀ c ∈ cars, c.2.1.length = 5 ∧ c.2.2.1.length = 5 ∧
        c.2.2.2.1.length = 2 ∧ c.2.2.2.2.length = 2) →
      check_cars cars = .ok () ∧ (sim_race cars input).2 = send_race_chunks cars) := by
  refine ⟨?_, ?_, ?_⟩
  · intro input
    simp [sim_race, check_cars]
  · intro cars input h101
    simp [sim_race, check_cars, h101]
  · intro cars input h100 hvalid
    have hok : check_cars cars = .ok () := by
      rw [check_cars, if_neg (by omega), if_neg (by omega)]
      exact check_cars_each_ok cars 0 hvalid
    refine ⟨hok, ?_⟩
    simp only [sim_race, hok]
    cases recv_scores cars.length input with
    | error e => rfl
    | ok p => rfl

/-- A concrete well-shaped car. -/
def car0 : Car :=
  (pyZero, List.replicate 5 pyZero, List.replicate 5 pyZero,
   List.replicate 2 pyZero, List.replicate 2 pyZero)

/-- Witness for `race_validation_boundary` on concrete 101-car and 100-car
requests. -/
theorem race_validation_boundary_witness :
    (List.replicate 101 car0).length = 101 ∧
    (List.replicate 100 car0).length = 100 ∧
    sim_race (List.replicate 101 car0) []
      = (.error (.assertionError
          "you have provided too many cars (use a number less or equal to 100)".data), []) ∧
    check_cars (List.replicate 100 car0) = .ok () :=
  ⟨by simp, by simp,
   race_validation_boundary.2.1 (List.replicate 101 car0) [] (by simp),
   (race_validation_boundary.2.2 (List.replicate 100 car0) [] (by simp)
     (fun c hc => by rw [List.eq_of_mem_replicate hc]; exact ⟨rfl, rfl, rfl, rfl⟩)).1⟩
